import Mathlib

/-!
# Verification of `dsp/modules/gpt3.py` (GPT3 completion client)

A shallow embedding of the GPT3 client adapter: Python dicts become
association lists over a JSON-like value type `Val`, the stateful client
(`history`, caches) becomes explicit state passing, fallible Python code
returns `Except Exc`, and the external collaborators (the OpenAI network
endpoints, the `backoff` retry decorator, the `json` module, and the cache
primitives from `dsp.modules.cache_utils` / `functools.lru_cache`, which are
not part of the analysed source) are modelled from the specification.
-/

namespace DspGpt3

/-- JSON-like Python values as they occur in the module's payloads and
responses.  Floats are modelled as rationals.  `serialized v` models the
string produced by `json.dumps` applied to (the Python value denoted by) `v`:
`json.dumps` is deterministic and injective on these values, and `json.loads`
is its inverse, so the serialized string is represented by the value it
encodes (see `jsonDumps` / `jsonLoads`). -/
inductive Val where
  | null
  | bool (b : Bool)
  | int (n : Int)
  | rat (q : ℚ)
  | str (s : String)
  | list (xs : List Val)
  | obj (fields : List (String × Val))
  | serialized (v : Val)

mutual

def Val.beq : Val → Val → Bool
  | .null, .null => true
  | .bool a, .bool b => decide (a = b)
  | .int a, .int b => decide (a = b)
  | .rat a, .rat b => decide (a = b)
  | .str a, .str b => decide (a = b)
  | .serialized a, .serialized b => Val.beq a b
  | .list xs, .list ys => Val.beqList xs ys
  | .obj fs, .obj gs => Val.beqFields fs gs
  | _, _ => false

def Val.beqList : List Val → List Val → Bool
  | [], [] => true
  | x :: xs, y :: ys => Val.beq x y && Val.beqList xs ys
  | _, _ => false

def Val.beqFields : List (String × Val) → List (String × Val) → Bool
  | [], [] => true
  | (k, x) :: xs, (l, y) :: ys => decide (k = l) && Val.beq x y && Val.beqFields xs ys
  | _, _ => false

end

mutual

theorem Val.beq_refl : (a : Val) → Val.beq a a = true
  | .null => rfl
  | .bool a => by simp [Val.beq]
  | .int a => by simp [Val.beq]
  | .rat a => by simp [Val.beq]
  | .str a => by simp [Val.beq]
  | .serialized a => by rw [Val.beq]; exact Val.beq_refl a
  | .list xs => by rw [Val.beq]; exact Val.beqList_refl xs
  | .obj fs => by rw [Val.beq]; exact Val.beqFields_refl fs

theorem Val.beqList_refl : (xs : List Val) → Val.beqList xs xs = true
  | [] => rfl
  | x :: xs => by rw [Val.beqList, Val.beq_refl x, Val.beqList_refl xs]; rfl

theorem Val.beqFields_refl : (xs : List (String × Val)) → Val.beqFields xs xs = true
  | [] => rfl
  | (k, x) :: xs => by rw [Val.beqFields, Val.beq_refl x, Val.beqFields_refl xs]; simp

end

mutual

theorem Val.eq_of_beq : (a b : Val) → Val.beq a b = true → a = b
  | .null, b, h => by cases b <;> first | rfl | simp [Val.beq] at h
  | .bool a, b, h => by cases b <;> simp [Val.beq] at h; exact congrArg Val.bool h
  | .int a, b, h => by cases b <;> simp [Val.beq] at h; exact congrArg Val.int h
  | .rat a, b, h => by cases b <;> simp [Val.beq] at h; exact congrArg Val.rat h
  | .str a, b, h => by cases b <;> simp [Val.beq] at h; exact congrArg Val.str h
  | .serialized a, .serialized b, h =>
      congrArg Val.serialized (Val.eq_of_beq a b (by rw [Val.beq] at h; exact h))
  | .serialized a, .null, h => by simp [Val.beq] at h
  | .serialized a, .bool _, h => by simp [Val.beq] at h
  | .serialized a, .int _, h => by simp [Val.beq] at h
  | .serialized a, .rat _, h => by simp [Val.beq] at h
  | .serialized a, .str _, h => by simp [Val.beq] at h
  | .serialized a, .list _, h => by simp [Val.beq] at h
  | .serialized a, .obj _, h => by simp [Val.beq] at h
  | .list xs, .list ys, h =>
      congrArg Val.list (Val.eqList_of_beq xs ys (by rw [Val.beq] at h; exact h))
  | .list xs, .null, h => by simp [Val.beq] at h
  | .list xs, .bool _, h => by simp [Val.beq] at h
  | .list xs, .int _, h => by simp [Val.beq] at h
  | .list xs, .rat _, h => by simp [Val.beq] at h
  | .list xs, .str _, h => by simp [Val.beq] at h
  | .list xs, .serialized _, h => by simp [Val.beq] at h
  | .list xs, .obj _, h => by simp [Val.beq] at h
  | .obj fs, .obj gs, h =>
      congrArg Val.obj (Val.eqFields_of_beq fs gs (by rw [Val.beq] at h; exact h))
  | .obj fs, .null, h => by simp [Val.beq] at h
  | .obj fs, .bool _, h => by simp [Val.beq] at h
  | .obj fs, .int _, h => by simp [Val.beq] at h
  | .obj fs, .rat _, h => by simp [Val.beq] at h
  | .obj fs, .str _, h => by simp [Val.beq] at h
  | .obj fs, .serialized _, h => by simp [Val.beq] at h
  | .obj fs, .list _, h => by simp [Val.beq] at h

theorem Val.eqList_of_beq : (xs ys : List Val) → Val.beqList xs ys = true → xs = ys
  | [], [], _ => rfl
  | [], _ :: _, h => by simp [Val.beqList] at h
  | _ :: _, [], h => by simp [Val.beqList] at h
  | x :: xs, y :: ys, h => by
      rw [Val.beqList] at h
      rw [Val.eq_of_beq x y (Bool.and_elim_left h), Val.eqList_of_beq xs ys (Bool.and_elim_right h)]

theorem Val.eqFields_of_beq : (xs ys : List (String × Val)) → Val.beqFields xs ys = true → xs = ys
  | [], [], _ => rfl
  | [], _ :: _, h => by simp [Val.beqFields] at h
  | _ :: _, [], h => by simp [Val.beqFields] at h
  | (k, x) :: xs, (l, y) :: ys, h => by
      rw [Val.beqFields] at h
      rw [of_decide_eq_true (Bool.and_elim_left (Bool.and_elim_left h)),
        Val.eq_of_beq x y (Bool.and_elim_right (Bool.and_elim_left h)),
        Val.eqFields_of_beq xs ys (Bool.and_elim_right h)]

end

instance Val.instDecidableEq : DecidableEq Val := fun a b =>
  if h : Val.beq a b = true then isTrue (Val.eq_of_beq a b h)
  else isFalse (fun hh => h (hh ▸ Val.beq_refl a))

/-- A Python `dict` with string keys, as an insertion-ordered association
list (CPython dicts preserve insertion order). -/
abbrev PyDict := List (String × Val)

/-- `k in d`-style lookup: the value bound to `k`, if any. -/
def dictLookup (d : PyDict) (k : String) : Option Val :=
  match d with
  | [] => none
  | kv :: rest => if kv.1 = k then some kv.2 else dictLookup rest k

/-- Python `k in d`. -/
def dictContains (d : PyDict) (k : String) : Bool :=
  (dictLookup d k).isSome

/-- Python `d[k] = v`: update the binding in place if `k` is present,
otherwise append it (insertion order semantics). -/
def dictSet (d : PyDict) (k : String) (v : Val) : PyDict :=
  if dictContains d k then d.map (fun kv => if kv.1 = k then (k, v) else kv)
  else d ++ [(k, v)]

/-- Python `{**a, **b}`: start from `a` and write every binding of `b`. -/
def dictMerge (a b : PyDict) : PyDict :=
  b.foldl (fun acc kv => dictSet acc kv.1 kv.2) a

/-- Python `del d[k]`: `none` models the `KeyError` raised when `k` is
absent. -/
def dictDel (d : PyDict) (k : String) : Option PyDict :=
  if dictContains d k then some (d.filter (fun kv => kv.1 ≠ k)) else none

/-- Exceptions observable from the embedded code. -/
inductive Exc where
  | keyError (k : String)
  | typeError (msg : String)
  | assertionError (msg : String)
  | rateLimitError
  | zeroDivisionError
  | apiError (msg : String)
deriving DecidableEq

/-- Python `d[k]` on a value: `KeyError` when the key is missing,
`TypeError` when the value is not a mapping. -/
def Val.getItem (v : Val) (k : String) : Except Exc Val :=
  match v with
  | .obj fields =>
    match dictLookup fields k with
    | some x => .ok x
    | none => .error (.keyError k)
  | _ => .error (.typeError "value is not subscriptable")

/-- Python truthiness of an optional value (`if x:` where a missing key
reads as `False`). -/
def valTruthy : Option Val → Bool
  | none => false
  | some v =>
    match v with
    | .null => false
    | .bool b => b
    | .int n => decide (n ≠ 0)
    | .rat q => decide (q ≠ 0)
    | .str s => decide (s ≠ "")
    | .list xs => decide (xs ≠ [])
    | .obj fs => decide (fs ≠ [])
    | .serialized _ => true

/-- Modelled from the spec: `json.dumps` — the canonical, deterministic,
injective serialization of a request payload (spec section "Stringify-then-
reparse payload trick"); represented by the serialized value itself. -/
def jsonDumps (v : Val) : Val :=
  Val.serialized v

/-- Modelled from the spec: `json.loads`, the inverse of `jsonDumps`;
anything that is not a serialization fails to parse. -/
def jsonLoads : Val → Except Exc Val
  | .serialized v => .ok v
  | _ => .error (.apiError "json.loads: not a valid serialized payload")

/-- `startsWithL l p`: the char list `p` is an initial segment of `l`. -/
def startsWithL : List Char → List Char → Bool
  | _, [] => true
  | [], _ :: _ => false
  | a :: as, b :: bs => decide (a = b) && startsWithL as bs

/-- `containsSubL l p`: `p` occurs as a contiguous segment of `l`
(Python `p in l` on strings). -/
def containsSubL (l p : List Char) : Bool :=
  startsWithL l p ||
    match l with
    | [] => false
    | _ :: tl => containsSubL tl p

/-- Python `pat in s` for strings. -/
def containsSubStr (s pat : String) : Bool :=
  containsSubL s.data pat.data

/-- Specification-side substring predicate: `pat` occurs contiguously in
`s`. -/
def hasSubstring (s pat : String) : Prop :=
  ∃ a b, s.data = a ++ pat.data ++ b

/-- `GPT3.__init__` lines 80-84: the model kind inferred from the model
name when `model_type` is not given. -/
def default_model_type (model : String) : String :=
  if (containsSubStr model "gpt-3.5" || containsSubStr model "turbo"
        || containsSubStr model "gpt-4")
      && !containsSubStr model "instruct"
  then "chat" else "text"

/-- `GPT3.__init__` line 85: `model_type if model_type else
default_model_type` (Python truthiness: `None` and `""` both fall back). -/
def selectModelType (model_type : Option String) (model : String) : String :=
  match model_type with
  | some mt => if mt = "" then default_model_type model else mt
  | none => default_model_type model

/-- `GPT3.__init__` lines 87-95: the default generation parameters. -/
def defaultKwargs : PyDict :=
  [("temperature", .rat 0), ("max_tokens", .int 150), ("top_p", .int 1),
   ("frequency_penalty", .int 0), ("presence_penalty", .int 0), ("n", .int 1)]

/-- `GPT3.__init__` lines 87-97: `self.kwargs = {<defaults>, **kwargs}`
followed by `self.kwargs["model"] = model`. -/
def initKwargs (model : String) (kwargs : PyDict) : PyDict :=
  dictSet (dictMerge defaultKwargs kwargs) "model" (.str model)

/-- The two external API endpoints reached through the `openai` client
(`Completion.create` / `completions.create` and `ChatCompletion.create` /
`chat.completions.create`).  An out-of-scope collaborator: an endpoint maps
a payload to a response or raises. -/
structure Net where
  chat : PyDict → Except Exc Val
  completions : PyDict → Except Exc Val

/-- The observable cache/network state of one `CachedCompletions` instance:
one store per cache tier and endpoint kind, plus a count of the network
calls issued per endpoint.  The session tier models the `functools.lru_cache`
behind `weak_lru` (keyed per client instance through `weakref.ref(self)`);
the durable and notebook tiers model `CacheMemory` / `NotebookCacheMemory`
from `dsp.modules.cache_utils` (not part of the analysed source; modelled
from the spec as key-value stores keyed by the full request content). -/
structure Caches where
  notebookChat : List (PyDict × Val)
  sessionChat : List (PyDict × Val)
  durableChat : List (PyDict × Val)
  notebookComp : List (PyDict × Val)
  sessionComp : List (PyDict × Val)
  durableComp : List (PyDict × Val)
  chatCalls : Nat
  compCalls : Nat

def emptyCaches : Caches :=
  ⟨[], [], [], [], [], [], 0, 0⟩

/-- Lookup in one cache tier, keyed by the full keyword-argument dict. -/
def memoGet (cache : List (PyDict × Val)) (k : PyDict) : Option Val :=
  match cache with
  | [] => none
  | kv :: rest => if kv.1 = k then some kv.2 else memoGet rest k

/-- Store into one cache tier.  When caching is disabled by configuration
(`cache_turn_on` false: `weak_lru(maxsize=0)` and, per the spec, the durable
tiers off as well) nothing is retained. -/
def memoPut (cacheOn : Bool) (cache : List (PyDict × Val)) (k : PyDict) (v : Val) :
    List (PyDict × Val) :=
  if cacheOn then cache ++ [(k, v)] else cache

/-- `CachedCompletions.cached_gpt3_request_v2` (legacy text endpoint):
delete `model_uuid` from the kwargs — a `KeyError` when absent — then call
`self.client.Completion.create(**kwargs)`.  Second component: number of
network calls issued. -/
def cached_gpt3_request_v2 (net : Net) (kwargs : PyDict) : Except Exc Val × Nat :=
  match dictDel kwargs "model_uuid" with
  | none => (.error (.keyError "model_uuid"), 0)
  | some kwargs' => (net.completions kwargs', 1)

/-- `CachedCompletions.v1_cached_gpt3_request_v2` (current text endpoint):
same body against `self.client.completions.create`. -/
def v1_cached_gpt3_request_v2 (net : Net) (kwargs : PyDict) : Except Exc Val × Nat :=
  match dictDel kwargs "model_uuid" with
  | none => (.error (.keyError "model_uuid"), 0)
  | some kwargs' => (net.completions kwargs', 1)

/-- `CachedCompletions._cached_gpt3_turbo_request_v2` (legacy chat
endpoint): when a `stringify_request` field is present, `json.loads` it back
into the real kwargs, then call `openai.ChatCompletion.create(**kwargs)`. -/
def cached_gpt3_turbo_request_v2 (net : Net) (kwargs : PyDict) : Except Exc Val × Nat :=
  if dictContains kwargs "stringify_request" then
    match dictLookup kwargs "stringify_request" with
    | some s =>
      match jsonLoads s with
      | .ok (.obj fields) => (net.chat fields, 1)
      | .ok _ => (.error (.typeError "argument after ** must be a mapping"), 0)
      | .error e => (.error e, 0)
    | none => (.error (.keyError "stringify_request"), 0)
  else (net.chat kwargs, 1)

/-- `CachedCompletions.v1_cached_gpt3_turbo_request_v2` (current chat
endpoint): same body against `self.client.chat.completions.create`. -/
def v1_cached_gpt3_turbo_request_v2 (net : Net) (kwargs : PyDict) : Except Exc Val × Nat :=
  if dictContains kwargs "stringify_request" then
    match dictLookup kwargs "stringify_request" with
    | some s =>
      match jsonLoads s with
      | .ok (.obj fields) => (net.chat fields, 1)
      | .ok _ => (.error (.typeError "argument after ** must be a mapping"), 0)
      | .error e => (.error e, 0)
    | none => (.error (.keyError "stringify_request"), 0)
  else (net.chat kwargs, 1)

/-- One memoization tier wrapped around a fallible computation: a hit never
recomputes; a successful miss is stored; a raising miss stores nothing (the
memoization primitives cache only successful results). -/
def memoized (cacheOn : Bool) (cache : List (PyDict × Val)) (kwargs : PyDict)
    (compute : PyDict → Except Exc Val × Nat) :
    Except Exc Val × List (PyDict × Val) × Nat :=
  match (if cacheOn then memoGet cache kwargs else none) with
  | some v => (.ok v, cache, 0)
  | none =>
    match compute kwargs with
    | (.ok v, n) => (.ok v, memoPut cacheOn cache kwargs v, n)
    | (.error e, n) => (.error e, cache, n)

/-- `CachedCompletions.completions_request`: dispatch on `OPENAI_LEGACY`.

Legacy branch (`self.cached_gpt3_request_v2_wrapped`): notebook tier over the
`weak_lru` session tier over the *raw* body — the `__init__` line
`self.cache_gpt3_request_v2 = CacheMemory.cache(self.cached_gpt3_request_v2, ...)`
stores the durable-cached version under a misspelled attribute name, so the
session tier's body resolves `self.cached_gpt3_request_v2` to the undecorated
method and the durable tier is bypassed on this path.

Current branch (`self.v1_cached_gpt3_request_v2_wrapped`): notebook tier over
session tier over durable tier over the raw body (`.model_dump()` on the
returned object is the identity on the plain response mapping). -/
def completions_request (cacheOn legacy : Bool) (net : Net) (c : Caches)
    (kwargs : PyDict) : Except Exc Val × Caches :=
  if legacy then
    match (if cacheOn then memoGet c.notebookComp kwargs else none) with
    | some v => (.ok v, c)
    | none =>
      match memoized cacheOn c.sessionComp kwargs (cached_gpt3_request_v2 net) with
      | (.ok v, session', n) =>
        (.ok v, { c with notebookComp := memoPut cacheOn c.notebookComp kwargs v,
                         sessionComp := session', compCalls := c.compCalls + n })
      | (.error e, session', n) =>
        (.error e, { c with sessionComp := session', compCalls := c.compCalls + n })
  else
    match (if cacheOn then memoGet c.notebookComp kwargs else none) with
    | some v => (.ok v, c)
    | none =>
      match memoized cacheOn c.sessionComp kwargs (fun kw =>
          match memoized cacheOn c.durableComp kw (v1_cached_gpt3_request_v2 net) with
          | (r, _, n) => (r, n)) with
      | (.ok v, session', n) =>
        let durable' := (memoized cacheOn c.durableComp kwargs
          (v1_cached_gpt3_request_v2 net)).2.1
        (.ok v, { c with notebookComp := memoPut cacheOn c.notebookComp kwargs v,
                         sessionComp := session', durableComp := durable',
                         compCalls := c.compCalls + n })
      | (.error e, session', n) =>
        (.error e, { c with sessionComp := session', compCalls := c.compCalls + n })

/-- `CachedCompletions.chat_request`: dispatch on `OPENAI_LEGACY`; both
branches are notebook tier over session tier over durable tier over the raw
chat body. -/
def chat_request (cacheOn legacy : Bool) (net : Net) (c : Caches)
    (kwargs : PyDict) : Except Exc Val × Caches :=
  if legacy then
    match (if cacheOn then memoGet c.notebookChat kwargs else none) with
    | some v => (.ok v, c)
    | none =>
      match memoized cacheOn c.sessionChat kwargs (fun kw =>
          match memoized cacheOn c.durableChat kw (cached_gpt3_turbo_request_v2 net) with
          | (r, _, n) => (r, n)) with
      | (.ok v, session', n) =>
        let durable' := (memoized cacheOn c.durableChat kwargs
          (cached_gpt3_turbo_request_v2 net)).2.1
        (.ok v, { c with notebookChat := memoPut cacheOn c.notebookChat kwargs v,
                         sessionChat := session', durableChat := durable',
                         chatCalls := c.chatCalls + n })
      | (.error e, session', n) =>
        (.error e, { c with sessionChat := session', chatCalls := c.chatCalls + n })
  else
    match (if cacheOn then memoGet c.notebookChat kwargs else none) with
    | some v => (.ok v, c)
    | none =>
      match memoized cacheOn c.sessionChat kwargs (fun kw =>
          match memoized cacheOn c.durableChat kw (v1_cached_gpt3_turbo_request_v2 net) with
          | (r, _, n) => (r, n)) with
      | (.ok v, session', n) =>
        let durable' := (memoized cacheOn c.durableChat kwargs
          (v1_cached_gpt3_turbo_request_v2 net)).2.1
        (.ok v, { c with notebookChat := memoPut cacheOn c.notebookChat kwargs v,
                         sessionChat := session', durableChat := durable',
                         chatCalls := c.chatCalls + n })
      | (.error e, session', n) =>
        (.error e, { c with sessionChat := session', chatCalls := c.chatCalls + n })

/-- One entry of `self.history` (`GPT3.basic_request` lines 133-138). -/
structure HistoryEntry where
  prompt : String
  response : Val
  kwargs : PyDict
  raw_kwargs : PyDict

/-- The mutable state of one `GPT3` client instance: configuration fixed by
`__init__` (`model_type`, `system_prompt`, `kwargs`, the `OPENAI_LEGACY`
branch and the `cache_turn_on` flag) plus the history log and the cache
state of its `CachedCompletions`. -/
structure GPT3State where
  model_type : String
  system_prompt : Option String
  kwargs : PyDict
  history : List HistoryEntry
  caches : Caches
  legacy : Bool
  cacheOn : Bool

/-- `GPT3.__init__`: a freshly constructed client. -/
def GPT3.initState (model : String) (model_type : Option String)
    (system_prompt : Option String) (kwargs : PyDict) (legacy cacheOn : Bool) :
    GPT3State :=
  { model_type := selectModelType model_type model
  , system_prompt := system_prompt
  , kwargs := initKwargs model kwargs
  , history := []
  , caches := emptyCaches
  , legacy := legacy
  , cacheOn := cacheOn }

/-- `GPT3.basic_request` lines 122-124: the chat message sequence — a single
user message carrying the prompt, preceded by the system message when
`self.system_prompt` is truthy (`if self.system_prompt:`). -/
def buildMessages (system_prompt : Option String) (prompt : String) : List Val :=
  let messages := [Val.obj [("role", .str "user"), ("content", .str prompt)]]
  match system_prompt with
  | some sp =>
    if sp = "" then messages
    else Val.obj [("role", .str "system"), ("content", .str sp)] :: messages
  | none => messages

/-- `GPT3.basic_request` lines 119-126 (chat branch): merge defaults with
per-call overrides, set `messages`, then replace the whole dict by
`{"stringify_request": json.dumps(kwargs)}`. -/
def chatRequestKwargs (st : GPT3State) (prompt : String) (kwargs : PyDict) : PyDict :=
  let merged := dictMerge st.kwargs kwargs
  let merged := dictSet merged "messages" (.list (buildMessages st.system_prompt prompt))
  [("stringify_request", jsonDumps (.obj merged))]

/-- `GPT3.basic_request` lines 119, 130 (text branch): merge defaults with
per-call overrides and set `prompt`. -/
def textRequestKwargs (st : GPT3State) (prompt : String) (kwargs : PyDict) : PyDict :=
  dictSet (dictMerge st.kwargs kwargs) "prompt" (.str prompt)

/-- `GPT3.basic_request` lines 116-141: build the payload, go through the
cache layer, and on success append a history entry; an exception propagates
before the append. -/
def basic_request (net : Net) (st : GPT3State) (prompt : String) (kwargs : PyDict) :
    Except Exc Val × GPT3State :=
  if st.model_type = "chat" then
    match chat_request st.cacheOn st.legacy net st.caches (chatRequestKwargs st prompt kwargs) with
    | (.ok response, c') =>
      (.ok response,
        { st with caches := c',
                  history := st.history ++
                    [⟨prompt, response, chatRequestKwargs st prompt kwargs, kwargs⟩] })
    | (.error e, c') => (.error e, { st with caches := c' })
  else
    match completions_request st.cacheOn st.legacy net st.caches (textRequestKwargs st prompt kwargs) with
    | (.ok response, c') =>
      (.ok response,
        { st with caches := c',
                  history := st.history ++
                    [⟨prompt, response, textRequestKwargs st prompt kwargs, kwargs⟩] })
    | (.error e, c') => (.error e, { st with caches := c' })

/-- `ERRORS = (openai.RateLimitError,)` (lines 19-26): the only exception
kind the retry decorator catches. -/
def isRateLimit : Exc → Bool
  | .rateLimitError => true
  | _ => false

/-- Modelled from the spec: the external `backoff.on_exception(backoff.expo,
ERRORS, max_time=1000)` decorator on `GPT3.request` — retry the wrapped call
while the raised exception is the designated rate-limit kind, re-raising it
unchanged once the elapsed wall-clock time (`elapsed n` after attempt `n`,
driven by the exponential backoff pauses) reaches the `maxTime` budget;
every other exception propagates at once.  `fuel` bounds the number of
attempts of the model; the theorems' hypotheses guarantee the loop resolves
within it.  The third component counts attempts made. -/
def backoffRetry (maxTime : ℚ) (elapsed : Nat → ℚ)
    (step : Nat → GPT3State → Except Exc Val × GPT3State) :
    Nat → Nat → GPT3State → Except Exc Val × GPT3State × Nat
  | 0, _, st => (.error .rateLimitError, st, 0)
  | fuel + 1, n, st =>
    match step n st with
    | (.ok v, st') => (.ok v, st', 1)
    | (.error e, st') =>
      if isRateLimit e then
        if maxTime ≤ elapsed n then (.error e, st', 1)
        else
          let r := backoffRetry maxTime elapsed step fuel (n + 1) st'
          (r.1, r.2.1, r.2.2 + 1)
      else (.error e, st', 1)

/-- `GPT3.request` lines 151-152: drop a stray `model_type` entry from the
per-call overrides. -/
def stripModelType (kwargs : PyDict) : PyDict :=
  if dictContains kwargs "model_type" then
    (dictDel kwargs "model_type").getD kwargs
  else kwargs

/-- `GPT3.request` lines 143-154: strip `model_type`, then run
`basic_request` under the retry decorator.  `net i` is the network behavior
seen by attempt `i`. -/
def request (net : Nat → Net) (elapsed : Nat → ℚ) (fuel : Nat) (st : GPT3State)
    (prompt : String) (kwargs : PyDict) : Except Exc Val × GPT3State × Nat :=
  let kwargs := stripModelType kwargs
  backoffRetry 1000 elapsed (fun i s => basic_request (net i) s prompt kwargs) fuel 0 st

/-- `GPT3._get_choice_text` lines 156-159. -/
def get_choice_text (model_type : String) (c : Val) : Except Exc Val :=
  if model_type = "chat" then do (← c.getItem "message").getItem "content"
  else c.getItem "text"

/-- `GPT3.__call__` line 193: `[c for c in choices if c["finish_reason"] !=
"length"]` (a missing key raises). -/
def filterCompleted : List Val → Except Exc (List Val)
  | [] => .ok []
  | c :: rest => do
    let fr ← c.getItem "finish_reason"
    let tail ← filterCompleted rest
    if fr ≠ Val.str "length" then .ok (c :: tail) else .ok tail

/-- Coerce the `tokens` field to a Python list. -/
def Val.asList : Val → Except Exc (List Val)
  | .list xs => .ok xs
  | _ => .error (.typeError "list expected")

/-- Coerce the `token_logprobs` field to a list of numbers (the API
delivers floats, modelled as rationals). -/
def ratListOf : List Val → Except Exc (List ℚ)
  | [] => .ok []
  | v :: rest => do
    let q ← match v with
      | .rat q => Except.ok q
      | .int n => Except.ok ((n : ℚ))
      | _ => Except.error (Exc.typeError "number expected")
    let tail ← ratListOf rest
    .ok (q :: tail)

def Val.asRatList : Val → Except Exc (List ℚ)
  | .list xs => ratListOf xs
  | _ => .error (.typeError "list of numbers expected")

/-- The end-of-text marker of `GPT3.__call__` line 212. -/
def eotToken : String := "<|endoftext|>"

/-- `GPT3.__call__` lines 212-214: truncate tokens and log-probabilities at
(and including) the first end-of-text marker, when one is present. -/
def truncAtEot (tokens : List Val) (logprobs : List ℚ) : List Val × List ℚ :=
  if Val.str eotToken ∈ tokens then
    let index := tokens.indexOf (Val.str eotToken) + 1
    (tokens.take index, logprobs.take index)
  else (tokens, logprobs)

/-- `GPT3.__call__` lines 206-217, one choice: extract tokens and
log-probabilities, truncate at the end-of-text marker, average (a
`ZeroDivisionError` on an empty list), and pair with the choice text. -/
def scoreChoice (model_type : String) (c : Val) : Except Exc (ℚ × String × List ℚ) := do
  let lpObj ← c.getItem "logprobs"
  let tokensVal ← lpObj.getItem "tokens"
  let logprobsVal ← lpObj.getItem "token_logprobs"
  let tokens ← tokensVal.asList
  let logprobs ← logprobsVal.asRatList
  let tl := truncAtEot tokens logprobs
  let logprobs := tl.2
  if logprobs.length = 0 then .error .zeroDivisionError
  else
    let avglog := logprobs.sum / (logprobs.length : ℚ)
    let text ← get_choice_text model_type c
    match text with
    | .str s => .ok (avglog, s, logprobs)
    | _ => .error (.typeError "str expected")

/-- Python `<` on lists over a linearly ordered element type (first
differing element decides; a strict initial segment is smaller). -/
def lexLt [LinearOrder α] : List α → List α → Bool
  | [], [] => false
  | [], _ :: _ => true
  | _ :: _, [] => false
  | a :: as, b :: bs => decide (a < b) || (decide (a = b) && lexLt as bs)

/-- Python `<` on the scored tuples `(avglog, text, logprobs)`:
lexicographic, strings compared by code point. -/
def tupLt (x y : ℚ × String × List ℚ) : Bool :=
  decide (x.1 < y.1) ||
    (decide (x.1 = y.1) &&
      (lexLt x.2.1.data y.2.1.data ||
        (decide (x.2.1 = y.2.1) && lexLt x.2.2 y.2.2)))

/-- Stable descending insertion (`sorted(..., reverse=True)` places `a`
before the first element not exceeding it, keeping equal elements in their
original order). -/
def insertDesc (lt : α → α → Bool) (a : α) : List α → List α
  | [] => [a]
  | b :: bs => if lt a b then b :: insertDesc lt a bs else a :: b :: bs

/-- `sorted(scored_completions, reverse=True)` of `GPT3.__call__` line 218:
stable descending sort. -/
def sortDesc (lt : α → α → Bool) : List α → List α
  | [] => []
  | a :: as => insertDesc lt a (sortDesc lt as)

/-- A Python list comprehension with a fallible body: elements evaluated
left to right, the first exception propagating. -/
def mapExcept (f : Val → Except Exc Val) : List Val → Except Exc (List Val)
  | [] => .ok []
  | c :: rest => do
    let t ← f c
    let tail ← mapExcept f rest
    .ok (t :: tail)

/-- The scoring loop of `GPT3.__call__` lines 204-217 over all choices. -/
def scoreAll (model_type : String) : List Val → Except Exc (List (ℚ × String × List ℚ))
  | [] => .ok []
  | c :: rest => do
    let s ← scoreChoice model_type c
    let tail ← scoreAll model_type rest
    .ok (s :: tail)

/-- `GPT3.__call__` lines 204-218: score every choice, then sort descending
by the Python tuple order. -/
def scoredCompletions (model_type : String) (choices : List Val) :
    Except Exc (List (ℚ × String × List ℚ)) := do
  let scored ← scoreAll model_type choices
  pure (sortDesc tupLt scored)

/-- `kwargs.get("n", 1) > 1` of `GPT3.__call__` line 203 (a non-numeric `n`
would raise a `TypeError` in Python; unreachable here because the branch is
guarded by `return_sorted`, which line 180 asserts to be false). -/
def pyGtOne : Option Val → Bool
  | some (.int n) => decide (1 < n)
  | some (.rat q) => decide (1 < q)
  | _ => false

/-- `GPT3.__call__` lines 161-224.  The two `assert` statements fail fast
before any request; then the response is fetched through `request`, its
`choices` filtered by finish reason, and the texts (with log-probability
structures when the caller asked for them) extracted.  Lines 203-223
(`return_sorted`) are kept although unreachable past line 180's assertion:
after the sort, line 219's `if logprobs:` reads the loop variable left by
the last iteration — a non-empty truncated log-probability list (an empty
one would have raised `ZeroDivisionError` at line 216) — so the dict-shaped
branch is taken. -/
def call (net : Nat → Net) (elapsed : Nat → ℚ) (fuel : Nat) (st : GPT3State)
    (prompt : String) (only_completed return_sorted : Bool) (kwargs : PyDict) :
    Except Exc (List Val) × GPT3State :=
  if !only_completed then (.error (.assertionError "for now"), st)
  else if return_sorted then (.error (.assertionError "for now"), st)
  else
    match request net elapsed fuel st prompt kwargs with
    | (.error e, st', _) => (.error e, st')
    | (.ok response, st', _) =>
      match response.getItem "choices" with
      | .error e => (.error e, st')
      | .ok choicesVal =>
        match choicesVal.asList with
        | .error e => (.error e, st')
        | .ok choices =>
          match filterCompleted choices with
          | .error e => (.error e, st')
          | .ok completed_choices =>
            let choices :=
              if only_completed && decide (completed_choices.length ≠ 0)
              then completed_choices else choices
            let completionsE :=
              if valTruthy (dictLookup kwargs "logprobs") then
                mapExcept (fun c => do
                  let t ← get_choice_text st.model_type c
                  let lp ← c.getItem "logprobs"
                  pure (Val.obj [("text", t), ("logprobs", lp)])) choices
              else mapExcept (get_choice_text st.model_type) choices
            match completionsE with
            | .error e => (.error e, st')
            | .ok completions =>
              if return_sorted && pyGtOne (dictLookup kwargs "n") then
                match scoredCompletions st.model_type choices with
                | .error e => (.error e, st')
                | .ok scored =>
                  (.ok (scored.map (fun s =>
                    Val.obj [("text", .str s.2.1),
                             ("logprobs", .list (s.2.2.map Val.rat))])), st')
              else (.ok completions, st')

/-- Run a sequence of `basic_request` calls (prompt together with raw
per-call kwargs), stopping at the first exception. -/
def runBasicRequests (net : Net) (st : GPT3State) :
    List (String × PyDict) → Except Exc Unit × GPT3State
  | [] => (.ok (), st)
  | (p, kw) :: rest =>
    match basic_request net st p kw with
    | (.ok _, st') => runBasicRequests net st' rest
    | (.error e, st') => (.error e, st')

/-! ## Concrete fixtures used by witnesses and counterexamples -/

/-- A network that echoes the payload it receives, making the forwarded
payload observable. -/
def echoNet : Net :=
  { chat := fun d => .ok (.obj d), completions := fun d => .ok (.obj d) }

/-- A client constructed as `GPT3("gpt-3.5-turbo-instruct")` (text mode,
current client library, caching on). -/
def textModeState : GPT3State :=
  GPT3.initState "gpt-3.5-turbo-instruct" none none [] false true

/-- A client constructed as `GPT3("gpt-4")` (chat mode, current client
library, caching on). -/
def chatModeState : GPT3State :=
  GPT3.initState "gpt-4" none none [] false true

/-- A chat-mode response choice with the given content and finish reason. -/
def mkChatChoice (p : String × String) : Val :=
  .obj [("finish_reason", .str p.2), ("message", .obj [("content", .str p.1)])]

/-- A response whose `choices` are chat choices built from
(content, finish_reason) pairs. -/
def chatResponse (pairs : List (String × String)) : Val :=
  .obj [("choices", .list (pairs.map mkChatChoice))]

/-- The (content, finish_reason) pairs kept by the truncation filter:
those whose finish reason is not `"length"`. -/
def keptPairs (pairs : List (String × String)) : List (String × String) :=
  pairs.filter (fun p => p.2 ≠ "length")

/-- A network answering every request on both endpoints with the same
response. -/
def constNet (response : Val) : Nat → Net :=
  fun _ => { chat := fun _ => .ok response, completions := fun _ => .ok response }

/-- A network failing on both endpoints with a non-rate-limit error. -/
def boomNet : Net :=
  { chat := fun _ => .error (.apiError "boom"),
    completions := fun _ => .error (.apiError "boom") }

/-- A text-mode response choice carrying a log-probability structure. -/
def lpChoice (text : String) (toks : List String) (lps : List ℚ) : Val :=
  .obj [("finish_reason", .str "stop"), ("text", .str text),
        ("logprobs", .obj [("tokens", .list (toks.map Val.str)),
                           ("token_logprobs", .list (lps.map Val.rat))])]

/-! ## Library lemmas about the embedded dictionary operations -/

theorem dictLookup_append (a b : PyDict) (k : String) :
    dictLookup (a ++ b) k =
      match dictLookup a k with
      | some v => some v
      | none => dictLookup b k := by
  induction a with
  | nil => simp [dictLookup]
  | cons kv rest ih =>
    obtain ⟨k', v'⟩ := kv
    by_cases h : k' = k <;> simp [dictLookup, h, ih]

theorem dictLookup_mapReplace (d : PyDict) (k : String) (v : Val) :
    dictLookup (d.map (fun kv => if kv.1 = k then (k, v) else kv)) k =
      (dictLookup d k).map (fun _ => v) := by
  induction d with
  | nil => simp [dictLookup]
  | cons kv rest ih =>
    by_cases h : kv.1 = k <;> simp [dictLookup, h, ih]

theorem dictLookup_mapReplace_ne (d : PyDict) (k k' : String) (v : Val) (h : k' ≠ k) :
    dictLookup (d.map (fun kv => if kv.1 = k then (k, v) else kv)) k' =
      dictLookup d k' := by
  induction d with
  | nil => simp [dictLookup]
  | cons kv rest ih =>
    by_cases h₁ : kv.1 = k
    · simp [dictLookup, h₁, (Ne.symm h : ¬ k = k'), ih]
    · by_cases h₂ : kv.1 = k' <;> simp [dictLookup, h₁, h₂, h, ih]

theorem dictContains_iff (d : PyDict) (k : String) :
    dictContains d k = true ↔ ∃ v, dictLookup d k = some v := by
  unfold dictContains
  rcases dictLookup d k with _ | v <;> simp

theorem dictLookup_dictSet_self (d : PyDict) (k : String) (v : Val) :
    dictLookup (dictSet d k v) k = some v := by
  unfold dictSet
  split
  · rename_i hc
    obtain ⟨v', hv'⟩ := (dictContains_iff d k).mp hc
    simp [dictLookup_mapReplace, hv']
  · rename_i hc
    have hnone : dictLookup d k = none := by
      rcases hl : dictLookup d k with _ | v'
      · rfl
      · exact absurd ((dictContains_iff d k).mpr ⟨v', hl⟩) hc
    simp [dictLookup_append, hnone, dictLookup]

theorem dictLookup_dictSet_ne (d : PyDict) (k k' : String) (v : Val) (h : k' ≠ k) :
    dictLookup (dictSet d k v) k' = dictLookup d k' := by
  unfold dictSet
  split
  · exact dictLookup_mapReplace_ne d k k' v h
  · simp only [dictLookup_append, dictLookup, if_neg (fun hh : k = k' => h hh.symm)]
    rcases dictLookup d k' with _ | v' <;> simp

theorem dictLookup_eq_none_of_not_mem (d : PyDict) (k : String)
    (h : k ∉ d.map Prod.fst) : dictLookup d k = none := by
  induction d with
  | nil => rfl
  | cons kv rest ih =>
    simp only [List.map_cons, List.mem_cons] at h
    push_neg at h
    simp [dictLookup, (Ne.symm h.1 : ¬ kv.1 = k), ih h.2]

theorem dictMerge_cons (a : PyDict) (k : String) (v : Val) (rest : PyDict) :
    dictMerge a ((k, v) :: rest) = dictMerge (dictSet a k v) rest := rfl

theorem dictLookup_dictMerge_of_none (a b : PyDict) (k : String)
    (h : dictLookup b k = none) :
    dictLookup (dictMerge a b) k = dictLookup a k := by
  induction b generalizing a with
  | nil => rfl
  | cons kv rest ih =>
    obtain ⟨k₁, v₁⟩ := kv
    simp only [dictLookup] at h
    by_cases h₁ : k₁ = k
    · simp [h₁] at h
    · rw [dictMerge_cons, ih _ (by simpa [h₁] using h),
        dictLookup_dictSet_ne _ _ _ _ (fun hh : k = k₁ => h₁ hh.symm)]

theorem dictLookup_dictMerge_of_some (a b : PyDict) (k : String) (v : Val)
    (hnd : (b.map Prod.fst).Nodup) (h : dictLookup b k = some v) :
    dictLookup (dictMerge a b) k = some v := by
  induction b generalizing a with
  | nil => simp [dictLookup] at h
  | cons kv rest ih =>
    obtain ⟨k₁, v₁⟩ := kv
    simp only [List.map_cons, List.nodup_cons] at hnd
    simp only [dictLookup] at h
    by_cases h₁ : k₁ = k
    · subst h₁
      simp at h
      subst h
      rw [dictMerge_cons,
        dictLookup_dictMerge_of_none _ _ _ (dictLookup_eq_none_of_not_mem _ _ hnd.1),
        dictLookup_dictSet_self]
    · rw [dictMerge_cons, ih _ hnd.2 (by simpa [h₁] using h)]

/-! ## Substring search is correct -/

theorem startsWithL_iff (p l : List Char) :
    startsWithL l p = true ↔ ∃ t, l = p ++ t := by
  induction p generalizing l with
  | nil => simp [startsWithL]
  | cons b bs ih =>
    cases l with
    | nil => simp [startsWithL]
    | cons a as => simp [startsWithL, ih, and_assoc]

theorem containsSubL_iff (l p : List Char) :
    containsSubL l p = true ↔ ∃ s t, l = s ++ p ++ t := by
  induction l with
  | nil =>
    rw [containsSubL]
    simp only [Bool.or_false, startsWithL_iff]
    constructor
    · rintro ⟨t, ht⟩
      exact ⟨[], t, by simpa using ht⟩
    · rintro ⟨s, t, hst⟩
      have hs : s = [] := by
        cases s with
        | nil => rfl
        | cons _ _ => simp at hst
      subst hs
      exact ⟨t, by simpa using hst⟩
  | cons a as ih =>
    rw [containsSubL]
    simp only [Bool.or_eq_true, startsWithL_iff, ih]
    constructor
    · rintro (⟨t, ht⟩ | ⟨s, t, hst⟩)
      · exact ⟨[], t, by simpa using ht⟩
      · exact ⟨a :: s, t, by simp [hst]⟩
    · rintro ⟨s, t, hst⟩
      cases s with
      | nil => exact Or.inl ⟨t, by simpa using hst⟩
      | cons s₀ s' =>
        simp only [List.cons_append, List.cons.injEq] at hst
        exact Or.inr ⟨s', t, hst.2⟩

theorem containsSubStr_iff (s pat : String) :
    containsSubStr s pat = true ↔ hasSubstring s pat :=
  containsSubL_iff s.data pat.data

/-! ## Claim theorems -/

/-- C3: with `model_type` omitted the inferred model kind is `"chat"`
exactly when the model name contains `"gpt-3.5"` or `"turbo"` or `"gpt-4"`
and does not contain `"instruct"`, and `"text"` otherwise; an explicit
`model_type` (one of the two `Literal` values) is used regardless of the
model name. -/
theorem model_type_inference (model : String) :
    (selectModelType none model = "chat" ↔
      ((hasSubstring model "gpt-3.5" ∨ hasSubstring model "turbo"
          ∨ hasSubstring model "gpt-4") ∧ ¬ hasSubstring model "instruct")) ∧
    (selectModelType none model = "text" ↔
      ¬ ((hasSubstring model "gpt-3.5" ∨ hasSubstring model "turbo"
          ∨ hasSubstring model "gpt-4") ∧ ¬ hasSubstring model "instruct")) ∧
    (∀ mt, mt = "chat" ∨ mt = "text" → selectModelType (some mt) model = mt) := by
  have hcond :
      (((containsSubStr model "gpt-3.5" || containsSubStr model "turbo"
          || containsSubStr model "gpt-4")
        && !containsSubStr model "instruct") = true) ↔
      ((hasSubstring model "gpt-3.5" ∨ hasSubstring model "turbo"
          ∨ hasSubstring model "gpt-4") ∧ ¬ hasSubstring model "instruct") := by
    simp [← containsSubStr_iff, or_assoc]
  refine ⟨?_, ?_, ?_⟩
  · rw [← hcond]
    simp only [selectModelType, default_model_type]
    split <;> rename_i hsplit <;> simp [hsplit]
  · rw [← hcond]
    simp only [selectModelType, default_model_type]
    split <;> rename_i hsplit <;> simp [hsplit]
  · rintro mt (rfl | rfl) <;> simp [selectModelType]

/-- Witness for C3 at the spec's concrete examples. -/
theorem model_type_inference_witness :
    selectModelType none "gpt-4" = "chat" ∧
    selectModelType none "gpt-3.5-turbo-instruct" = "text" ∧
    selectModelType (some "text") "gpt-4" = "text" := by
  refine ⟨?_, ?_, (model_type_inference "gpt-4").2.2 "text" (Or.inr rfl)⟩
  · exact (model_type_inference "gpt-4").1.mpr
      ⟨Or.inr (Or.inr ((containsSubStr_iff _ _).mp (by decide))),
        fun hsub => absurd ((containsSubStr_iff _ _).mpr hsub) (by decide)⟩
  · exact (model_type_inference "gpt-3.5-turbo-instruct").2.1.mpr
      (fun hand => hand.2 ((containsSubStr_iff _ _).mp (by decide)))

/-- C10: after construction the default parameter map binds `"model"` to
the constructor's `model` argument, even when the open-ended constructor
kwargs also supply a `"model"` entry, while every other same-named
constructor kwarg (a Python dict, hence with distinct keys) overrides the
built-in default. -/
theorem initKwargs_model_wins (model : String) (kwargs : PyDict) :
    dictLookup (initKwargs model kwargs) "model" = some (.str model) ∧
    (∀ k v, k ≠ "model" → (kwargs.map Prod.fst).Nodup →
      dictLookup kwargs k = some v →
      dictLookup (initKwargs model kwargs) k = some v) := by
  constructor
  · exact dictLookup_dictSet_self _ _ _
  · intro k v hk hnd hv
    unfold initKwargs
    rw [dictLookup_dictSet_ne _ _ _ _ hk, dictLookup_dictMerge_of_some _ _ _ _ hnd hv]

/-- Witness for C10: a kwargs `"model"` entry loses to the positional
argument, and a kwargs `"temperature"` entry overrides the default. -/
theorem initKwargs_model_wins_witness :
    dictLookup (initKwargs "gpt-4" [("model", .str "other"), ("temperature", .rat 1)])
      "model" = some (.str "gpt-4") ∧
    dictLookup (initKwargs "gpt-4" [("model", .str "other"), ("temperature", .rat 1)])
      "temperature" = some (.rat 1) :=
  ⟨(initKwargs_model_wins "gpt-4" [("model", .str "other"), ("temperature", .rat 1)]).1,
    (initKwargs_model_wins "gpt-4" [("model", .str "other"), ("temperature", .rat 1)]).2
      "temperature" (.rat 1) (by decide) (by decide) (by decide)⟩

/-- C5: `__call__` with `only_completed=false` or `return_sorted=true` hits
one of the two `assert ... , "for now"` statements and fails before any
request: no cache tier is consulted, no network call is counted, and the
returned state (history log included) is exactly the input state. -/
theorem call_asserts_fail_fast (net : Nat → Net) (elapsed : Nat → ℚ) (fuel : Nat)
    (st : GPT3State) (prompt : String) (kwargs : PyDict) :
    (∀ rs, call net elapsed fuel st prompt false rs kwargs
      = (.error (.assertionError "for now"), st)) ∧
    (∀ oc, call net elapsed fuel st prompt oc true kwargs
      = (.error (.assertionError "for now"), st)) := by
  constructor
  · intro rs; rfl
  · intro oc; cases oc <;> rfl

/-- C1, evaluated at the failing input: the client never generates or
inserts a `model_uuid` into any payload (`CachedCompletions.__init__` only
carries the comment `# generate uuid for cache`; `import uuid` is unused),
so a text-mode `basic_request` reaches `del kwargs["model_uuid"]` with the
key absent and raises `KeyError` — no cache key ever incorporates a
`model_uuid` and the outbound call is never made. -/
theorem text_mode_keyerror_model_uuid :
    (basic_request echoNet textModeState "hi" []).1
      = .error (.keyError "model_uuid") ∧
    (basic_request echoNet textModeState "hi" []).2.history = [] ∧
    (basic_request echoNet textModeState "hi" []).2.caches.compCalls = 0 ∧
    dictContains (textRequestKwargs textModeState "hi" []) "model_uuid" = false :=
  ⟨rfl, rfl, rfl, rfl⟩

theorem basic_request_ok_history (net : Net) (st : GPT3State) (p : String)
    (kw : PyDict) (r : Val) (st' : GPT3State)
    (h : basic_request net st p kw = (.ok r, st')) :
    st'.history = st.history ++
      [⟨p, r, if st.model_type = "chat" then chatRequestKwargs st p kw
              else textRequestKwargs st p kw, kw⟩] := by
  unfold basic_request at h
  split at h <;> rename_i hm <;> split at h <;> rename_i heq <;>
    simp only [Prod.mk.injEq] at h
  · rcases h with ⟨hr, hst⟩
    cases hr
    subst hst
    simp [hm]
  · exact absurd h.1 (by simp)
  · rcases h with ⟨hr, hst⟩
    cases hr
    subst hst
    simp [hm]
  · exact absurd h.1 (by simp)

theorem basic_request_error_history (net : Net) (st : GPT3State) (p : String)
    (kw : PyDict) (e : Exc) (st' : GPT3State)
    (h : basic_request net st p kw = (.error e, st')) :
    st'.history = st.history := by
  unfold basic_request at h
  split at h <;> split at h <;> simp only [Prod.mk.injEq] at h
  · exact absurd h.1 (by simp)
  · rcases h with ⟨_, hst⟩; subst hst; rfl
  · exact absurd h.1 (by simp)
  · rcases h with ⟨_, hst⟩; subst hst; rfl

/-- C6: the history log is append-only — a run of `N` successful
`basic_request` calls appends exactly `N` entries in call order, each
holding the original prompt and the caller's raw kwargs (together with the
response and the payload sent); a single successful call appends exactly the
record `{prompt, response, kwargs, raw_kwargs}`; and a call that raises
leaves the log unchanged. -/
theorem history_append_only (net : Net) :
    (∀ st calls u st', runBasicRequests net st calls = (.ok u, st') →
      ∃ news, st'.history = st.history ++ news ∧
        List.Forall₂ (fun (en : HistoryEntry) (c : String × PyDict) =>
          en.prompt = c.1 ∧ en.raw_kwargs = c.2) news calls) ∧
    (∀ st p kw r st', basic_request net st p kw = (.ok r, st') →
      st'.history = st.history ++
        [⟨p, r, if st.model_type = "chat" then chatRequestKwargs st p kw
                else textRequestKwargs st p kw, kw⟩]) ∧
    (∀ st p kw e st', basic_request net st p kw = (.error e, st') →
      st'.history = st.history) := by
  refine ⟨?_, basic_request_ok_history net, basic_request_error_history net⟩
  intro st calls
  induction calls generalizing st with
  | nil =>
    intro u st' h
    simp only [runBasicRequests, Prod.mk.injEq] at h
    exact ⟨[], by simp [h.2], List.Forall₂.nil⟩
  | cons c rest ih =>
    intro u st' h
    obtain ⟨p, kw⟩ := c
    simp only [runBasicRequests] at h
    split at h <;> rename_i r st₁ heq
    · obtain ⟨news, hh, hf⟩ := ih st₁ u st' h
      refine ⟨⟨p, r, if st.model_type = "chat" then chatRequestKwargs st p kw
        else textRequestKwargs st p kw, kw⟩ :: news, ?_, ?_⟩
      · rw [hh, basic_request_ok_history net st p kw r st₁ heq]
        simp
      · exact List.Forall₂.cons ⟨rfl, rfl⟩ hf
    · simp at h

/-- Witness for C6: one successful chat-mode call appends one entry with
the right prompt and raw kwargs. -/
theorem history_append_only_witness :
    ∃ news,
      ((runBasicRequests (constNet (chatResponse [("b", "stop")]) 0) chatModeState
          [("q", [])]).2).history = chatModeState.history ++ news ∧
      List.Forall₂ (fun (en : HistoryEntry) (c : String × PyDict) =>
        en.prompt = c.1 ∧ en.raw_kwargs = c.2) news [("q", [])] :=
  (history_append_only (constNet (chatResponse [("b", "stop")]) 0)).1
    chatModeState [("q", [])] () _ rfl

theorem chat_request_serialized_ok (cacheOn legacy : Bool) (net : Net)
    (merged : PyDict) (v : Val) (hnet : net.chat merged = .ok v) :
    (chat_request cacheOn legacy net emptyCaches
        [("stringify_request", Val.serialized (.obj merged))]).1 = .ok v := by
  cases legacy <;> cases cacheOn <;>
    simp [chat_request, memoized, memoGet, memoPut, emptyCaches,
      cached_gpt3_turbo_request_v2, v1_cached_gpt3_turbo_request_v2,
      dictContains, dictLookup, jsonLoads, hnet]

theorem chat_request_compCalls (cacheOn legacy : Bool) (net : Net) (c : Caches)
    (kw : PyDict) :
    (chat_request cacheOn legacy net c kw).2.compCalls = c.compCalls := by
  unfold chat_request
  repeat' split
  all_goals rfl

theorem completions_request_chatCalls (cacheOn legacy : Bool) (net : Net)
    (c : Caches) (kw : PyDict) :
    (completions_request cacheOn legacy net c kw).2.chatCalls = c.chatCalls := by
  unfold completions_request
  repeat' split
  all_goals rfl

/-- C9: `basic_request` in chat mode hands the cache layer an ordered
message sequence — the system message first when one is configured (truthy),
then exactly one user message carrying the prompt — wrapped into a single
`stringify_request` field holding the canonical serialization of the whole
merged payload (the network endpoint observes exactly the merged payload,
deserialized, and the completions endpoint is never counted); in text mode
the prompt is set directly as the `prompt` entry of the merged parameters
and the request goes to the completions path (the chat endpoint is never
counted). -/
theorem chat_mode_payload (st : GPT3State) (prompt : String) (kwargs : PyDict) :
    (∀ sp, st.system_prompt = some sp → sp ≠ "" →
      buildMessages st.system_prompt prompt =
        [.obj [("role", .str "system"), ("content", .str sp)],
         .obj [("role", .str "user"), ("content", .str prompt)]]) ∧
    (st.system_prompt = none →
      buildMessages st.system_prompt prompt =
        [.obj [("role", .str "user"), ("content", .str prompt)]]) ∧
    (chatRequestKwargs st prompt kwargs =
      [("stringify_request", Val.serialized (.obj (dictSet (dictMerge st.kwargs kwargs)
          "messages" (.list (buildMessages st.system_prompt prompt)))))]) ∧
    (st.model_type = "chat" → st.caches = emptyCaches →
      ∀ f, (basic_request { chat := fun d => .ok (.obj d), completions := f }
            st prompt kwargs).1
          = .ok (.obj (dictSet (dictMerge st.kwargs kwargs) "messages"
              (.list (buildMessages st.system_prompt prompt)))) ∧
        (basic_request { chat := fun d => .ok (.obj d), completions := f }
            st prompt kwargs).2.caches.compCalls = st.caches.compCalls) ∧
    (st.model_type ≠ "chat" →
      dictLookup (textRequestKwargs st prompt kwargs) "prompt" = some (.str prompt) ∧
      ∀ g, (basic_request g st prompt kwargs).2.caches.chatCalls
        = st.caches.chatCalls) := by
  refine ⟨?_, ?_, rfl, ?_, ?_⟩
  · intro sp hsp hne
    simp [buildMessages, hsp, hne]
  · intro hsp
    simp [buildMessages, hsp]
  · intro hm hc f
    have h1 := chat_request_serialized_ok st.cacheOn st.legacy
      { chat := fun d => .ok (.obj d), completions := f }
      (dictSet (dictMerge st.kwargs kwargs) "messages"
        (.list (buildMessages st.system_prompt prompt)))
      (.obj (dictSet (dictMerge st.kwargs kwargs) "messages"
        (.list (buildMessages st.system_prompt prompt)))) rfl
    have h2 := chat_request_compCalls st.cacheOn st.legacy
      { chat := fun d => .ok (.obj d), completions := f } emptyCaches
      [("stringify_request", Val.serialized (.obj (dictSet (dictMerge st.kwargs kwargs)
          "messages" (.list (buildMessages st.system_prompt prompt)))))]
    unfold basic_request
    rw [if_pos hm, hc]
    rcases hcr : chat_request st.cacheOn st.legacy
        { chat := fun d => .ok (.obj d), completions := f } emptyCaches
        (chatRequestKwargs st prompt kwargs) with ⟨res, c'⟩
    have hres : res = .ok (.obj (dictSet (dictMerge st.kwargs kwargs) "messages"
        (.list (buildMessages st.system_prompt prompt)))) := by
      have : (chat_request st.cacheOn st.legacy
          { chat := fun d => .ok (.obj d), completions := f } emptyCaches
          (chatRequestKwargs st prompt kwargs)).1 = res := by rw [hcr]
      rw [← this]
      exact h1
    have hcomp : c'.compCalls = emptyCaches.compCalls := by
      have : (chat_request st.cacheOn st.legacy
          { chat := fun d => .ok (.obj d), completions := f } emptyCaches
          (chatRequestKwargs st prompt kwargs)).2 = c' := by rw [hcr]
      rw [← this]
      exact h2
    subst hres
    simp [hc, hcomp, emptyCaches]
  · intro hm
    refine ⟨dictLookup_dictSet_self _ _ _, ?_⟩
    intro g
    unfold basic_request
    rw [if_neg hm]
    rcases hcr : completions_request st.cacheOn st.legacy g st.caches
        (textRequestKwargs st prompt kwargs) with ⟨res, c'⟩
    have hchat : c'.chatCalls = st.caches.chatCalls := by
      have : (completions_request st.cacheOn st.legacy g st.caches
          (textRequestKwargs st prompt kwargs)).2 = c' := by rw [hcr]
      rw [← this]
      exact completions_request_chatCalls _ _ _ _ _
    cases res <;> simp [hchat]

/-- Witness for C9 at a concrete configuration: system prompt `"sys"`,
prompt `"hi"`, no per-call kwargs. -/
theorem chat_mode_payload_witness :
    buildMessages (some "sys") "hi" =
      [.obj [("role", .str "system"), ("content", .str "sys")],
       .obj [("role", .str "user"), ("content", .str "hi")]] ∧
    dictLookup (textRequestKwargs textModeState "hi" []) "prompt"
      = some (.str "hi") :=
  ⟨(chat_mode_payload { textModeState with system_prompt := some "sys" } "hi" []).1
      "sys" rfl (by decide),
    ((chat_mode_payload textModeState "hi" []).2.2.2.2 (by decide)).1⟩

theorem turbo_raw_ok_one (net : Net) (kw : PyDict) (v : Val)
    (h : (cached_gpt3_turbo_request_v2 net kw).1 = .ok v) :
    cached_gpt3_turbo_request_v2 net kw = (.ok v, 1) := by
  unfold cached_gpt3_turbo_request_v2 at h ⊢
  repeat' split at h
  all_goals simp_all

theorem v1_turbo_raw_ok_one (net : Net) (kw : PyDict) (v : Val)
    (h : (v1_cached_gpt3_turbo_request_v2 net kw).1 = .ok v) :
    v1_cached_gpt3_turbo_request_v2 net kw = (.ok v, 1) := by
  unfold v1_cached_gpt3_turbo_request_v2 at h ⊢
  repeat' split at h
  all_goals simp_all

theorem text_raw_ok_one (net : Net) (kw : PyDict) (v : Val)
    (h : (cached_gpt3_request_v2 net kw).1 = .ok v) :
    cached_gpt3_request_v2 net kw = (.ok v, 1) := by
  unfold cached_gpt3_request_v2 at h ⊢
  repeat' split at h
  all_goals simp_all

theorem v1_text_raw_ok_one (net : Net) (kw : PyDict) (v : Val)
    (h : (v1_cached_gpt3_request_v2 net kw).1 = .ok v) :
    v1_cached_gpt3_request_v2 net kw = (.ok v, 1) := by
  unfold v1_cached_gpt3_request_v2 at h ⊢
  repeat' split at h
  all_goals simp_all

theorem chat_request_empty_ok_state (legacy : Bool) (net : Net) (kw : PyDict) (v : Val)
    (h : (chat_request true legacy net emptyCaches kw).1 = .ok v) :
    chat_request true legacy net emptyCaches kw
      = (.ok v, ⟨[(kw, v)], [(kw, v)], [(kw, v)], [], [], [], 1, 0⟩) := by
  cases legacy with
  | false =>
    rcases hraw : v1_cached_gpt3_turbo_request_v2 net kw with ⟨res, n⟩
    cases res with
    | ok w =>
      have hn : n = 1 := by
        have := v1_turbo_raw_ok_one net kw w (by rw [hraw])
        rw [hraw] at this
        exact (Prod.mk.injEq _ _ _ _).mp this |>.2.symm ▸ rfl
      subst hn
      have hvw : v = w := by
        have hcr : (chat_request true false net emptyCaches kw).1 = .ok w := by
          simp [chat_request, memoized, memoGet, memoPut, emptyCaches, hraw]
        rw [h] at hcr
        exact (Except.ok.injEq _ _).mp hcr
      subst hvw
      simp [chat_request, memoized, memoGet, memoPut, emptyCaches, hraw]
    | error e =>
      exfalso
      have hcr : (chat_request true false net emptyCaches kw).1 = .error e := by
        simp [chat_request, memoized, memoGet, memoPut, emptyCaches, hraw]
      rw [h] at hcr
      exact Except.noConfusion hcr
  | true =>
    rcases hraw : cached_gpt3_turbo_request_v2 net kw with ⟨res, n⟩
    cases res with
    | ok w =>
      have hn : n = 1 := by
        have := turbo_raw_ok_one net kw w (by rw [hraw])
        rw [hraw] at this
        exact (Prod.mk.injEq _ _ _ _).mp this |>.2.symm ▸ rfl
      subst hn
      have hvw : v = w := by
        have hcr : (chat_request true true net emptyCaches kw).1 = .ok w := by
          simp [chat_request, memoized, memoGet, memoPut, emptyCaches, hraw]
        rw [h] at hcr
        exact (Except.ok.injEq _ _).mp hcr
      subst hvw
      simp [chat_request, memoized, memoGet, memoPut, emptyCaches, hraw]
    | error e =>
      exfalso
      have hcr : (chat_request true true net emptyCaches kw).1 = .error e := by
        simp [chat_request, memoized, memoGet, memoPut, emptyCaches, hraw]
      rw [h] at hcr
      exact Except.noConfusion hcr

theorem completions_request_empty_ok_state (legacy : Bool) (net : Net) (kw : PyDict)
    (v : Val) (h : (completions_request true legacy net emptyCaches kw).1 = .ok v) :
    completions_request true legacy net emptyCaches kw
      = (.ok v, if legacy then ⟨[], [], [], [(kw, v)], [(kw, v)], [], 0, 1⟩
                else ⟨[], [], [], [(kw, v)], [(kw, v)], [(kw, v)], 0, 1⟩) := by
  cases legacy with
  | false =>
    rcases hraw : v1_cached_gpt3_request_v2 net kw with ⟨res, n⟩
    cases res with
    | ok w =>
      have hn : n = 1 := by
        have := v1_text_raw_ok_one net kw w (by rw [hraw])
        rw [hraw] at this
        exact (Prod.mk.injEq _ _ _ _).mp this |>.2.symm ▸ rfl
      subst hn
      have hvw : v = w := by
        have hcr : (completions_request true false net emptyCaches kw).1 = .ok w := by
          simp [completions_request, memoized, memoGet, memoPut, emptyCaches, hraw]
        rw [h] at hcr
        exact (Except.ok.injEq _ _).mp hcr
      subst hvw
      simp [completions_request, memoized, memoGet, memoPut, emptyCaches, hraw]
    | error e =>
      exfalso
      have hcr : (completions_request true false net emptyCaches kw).1 = .error e := by
        simp [completions_request, memoized, memoGet, memoPut, emptyCaches, hraw]
      rw [h] at hcr
      exact Except.noConfusion hcr
  | true =>
    rcases hraw : cached_gpt3_request_v2 net kw with ⟨res, n⟩
    cases res with
    | ok w =>
      have hn : n = 1 := by
        have := text_raw_ok_one net kw w (by rw [hraw])
        rw [hraw] at this
        exact (Prod.mk.injEq _ _ _ _).mp this |>.2.symm ▸ rfl
      subst hn
      have hvw : v = w := by
        have hcr : (completions_request true true net emptyCaches kw).1 = .ok w := by
          simp [completions_request, memoized, memoGet, memoPut, emptyCaches, hraw]
        rw [h] at hcr
        exact (Except.ok.injEq _ _).mp hcr
      subst hvw
      simp [completions_request, memoized, memoGet, memoPut, emptyCaches, hraw]
    | error e =>
      exfalso
      have hcr : (completions_request true true net emptyCaches kw).1 = .error e := by
        simp [completions_request, memoized, memoGet, memoPut, emptyCaches, hraw]
      rw [h] at hcr
      exact Except.noConfusion hcr

/-- C7: with caching on, a first successful `chat_request`
(resp. `completions_request`) on a fresh client issues exactly one network
call, and repeating it with byte-identical arguments on the same instance
issues no further network call and returns the same value with the cache
state untouched. -/
theorem cache_idempotence (legacy : Bool) (net : Net) (kw : PyDict) (v w : Val) :
    ((chat_request true legacy net emptyCaches kw).1 = .ok v →
      (chat_request true legacy net emptyCaches kw).2.chatCalls = 1 ∧
      (chat_request true legacy net emptyCaches kw).2.compCalls = 0 ∧
      chat_request true legacy net (chat_request true legacy net emptyCaches kw).2 kw
        = (.ok v, (chat_request true legacy net emptyCaches kw).2)) ∧
    ((completions_request true legacy net emptyCaches kw).1 = .ok w →
      (completions_request true legacy net emptyCaches kw).2.compCalls = 1 ∧
      (completions_request true legacy net emptyCaches kw).2.chatCalls = 0 ∧
      completions_request true legacy net
          (completions_request true legacy net emptyCaches kw).2 kw
        = (.ok w, (completions_request true legacy net emptyCaches kw).2)) := by
  constructor
  · intro h
    rw [chat_request_empty_ok_state legacy net kw v h]
    refine ⟨rfl, rfl, ?_⟩
    cases legacy <;> simp [chat_request, memoGet]
  · intro h
    rw [completions_request_empty_ok_state legacy net kw w h]
    cases legacy <;>
      refine ⟨rfl, rfl, ?_⟩ <;> simp [completions_request, memoGet]

/-- Witness for C7: a concrete chat payload and a concrete text payload
(the latter carrying the `model_uuid` its raw function deletes) each hit the
cache on the second call. -/
theorem cache_idempotence_witness :
    ((chat_request true false echoNet emptyCaches [("a", .int 1)]).2.chatCalls = 1 ∧
      (chat_request true false echoNet emptyCaches [("a", .int 1)]).2.compCalls = 0 ∧
      chat_request true false echoNet
          (chat_request true false echoNet emptyCaches [("a", .int 1)]).2 [("a", .int 1)]
        = (.ok (.obj [("a", .int 1)]),
            (chat_request true false echoNet emptyCaches [("a", .int 1)]).2)) ∧
    ((completions_request true false echoNet emptyCaches
          [("model_uuid", .str "u"), ("prompt", .str "p")]).2.compCalls = 1 ∧
      (completions_request true false echoNet emptyCaches
          [("model_uuid", .str "u"), ("prompt", .str "p")]).2.chatCalls = 0 ∧
      completions_request true false echoNet
          (completions_request true false echoNet emptyCaches
            [("model_uuid", .str "u"), ("prompt", .str "p")]).2
          [("model_uuid", .str "u"), ("prompt", .str "p")]
        = (.ok (.obj [("prompt", .str "p")]),
            (completions_request true false echoNet emptyCaches
              [("model_uuid", .str "u"), ("prompt", .str "p")]).2)) :=
  ⟨(cache_idempotence false echoNet [("a", .int 1)] (.obj [("a", .int 1)])
      (.obj [("prompt", .str "p")])).1 rfl,
    (cache_idempotence false echoNet [("model_uuid", .str "u"), ("prompt", .str "p")]
      (.obj [("a", .int 1)]) (.obj [("prompt", .str "p")])).2 rfl⟩

theorem backoffRetry_always_rateLimit (elapsed : Nat → ℚ)
    (step : Nat → GPT3State → Except Exc Val × GPT3State)
    (hall : ∀ i s, (step i s).1 = .error .rateLimitError) :
    ∀ fuel n st, (∃ k, n ≤ k ∧ k < n + fuel ∧ 1000 ≤ elapsed k) →
      (backoffRetry 1000 elapsed step fuel n st).1 = .error .rateLimitError := by
  intro fuel
  induction fuel with
  | zero =>
    rintro n st ⟨k, h1, h2, -⟩
    omega
  | succ f ih =>
    rintro n st ⟨k, hnk, hlt, hk⟩
    rcases hs : step n st with ⟨res, st₁⟩
    have hres : res = .error .rateLimitError := by
      have hh := hall n st
      rw [hs] at hh
      exact hh
    subst hres
    by_cases hel : (1000 : ℚ) ≤ elapsed n
    · simp [backoffRetry, hs, isRateLimit, hel]
    · simp only [backoffRetry, hs, isRateLimit, if_pos rfl, if_neg hel]
      apply ih (n + 1) st₁
      have hkn : k ≠ n := fun he => hel (he ▸ hk)
      exact ⟨k, by omega, by omega, hk⟩

/-- C4: the retry layer on `request` retries only the designated rate-limit
error kind, bounded by a total elapsed-time budget of 1000 seconds after
which the triggering rate-limit error is re-raised unchanged; any other
exception propagates on its first occurrence with a single attempt made, and
a first successful attempt is returned directly. -/
theorem retry_policy (net : Nat → Net) (elapsed : Nat → ℚ)
    (step : Nat → GPT3State → Except Exc Val × GPT3State)
    (st st₀ : GPT3State) (prompt : String) (kwargs : PyDict) (fuel : Nat) (e : Exc) :
    (isRateLimit e = false →
      basic_request (net 0) st prompt (stripModelType kwargs) = (.error e, st₀) →
      request net elapsed (fuel + 1) st prompt kwargs = (.error e, st₀, 1)) ∧
    ((∀ i s, (step i s).1 = .error .rateLimitError) →
      (∃ k, k < fuel ∧ 1000 ≤ elapsed k) →
      (backoffRetry 1000 elapsed step fuel 0 st).1 = .error .rateLimitError) ∧
    (∀ v st₁, basic_request (net 0) st prompt (stripModelType kwargs) = (.ok v, st₁) →
      request net elapsed (fuel + 1) st prompt kwargs = (.ok v, st₁, 1)) := by
  refine ⟨?_, ?_, ?_⟩
  · intro hrl h
    simp [request, backoffRetry, h, hrl]
  · rintro hall ⟨k, hkf, hk⟩
    exact backoffRetry_always_rateLimit elapsed step hall fuel 0 st ⟨k, by omega, by omega, hk⟩
  · intro v st₁ h
    simp [request, backoffRetry, h]

/-- Witness for C4: a non-rate-limit network failure propagates unchanged
after one attempt, and a permanently rate-limited step re-raises the
rate-limit error once the simulated clock passes 1000 seconds. -/
theorem retry_policy_witness :
    request (fun _ => boomNet) (fun _ => 0) 3 chatModeState "q" []
      = (.error (.apiError "boom"),
          (basic_request boomNet chatModeState "q" (stripModelType [])).2, 1) ∧
    (backoffRetry 1000 (fun k => 600 * ((k : ℚ) + 1))
        (fun _ s => (.error .rateLimitError, s)) 2 0 chatModeState).1
      = .error .rateLimitError :=
  ⟨(retry_policy (fun _ => boomNet) (fun _ => 0)
      (fun _ s => (.error .rateLimitError, s)) chatModeState
      (basic_request boomNet chatModeState "q" (stripModelType [])).2
      "q" [] 2 (.apiError "boom")).1 rfl rfl,
    (retry_policy (fun _ => echoNet) (fun k => 600 * ((k : ℚ) + 1))
      (fun _ s => (.error .rateLimitError, s)) chatModeState chatModeState "q" [] 2
      (.apiError "x")).2.1 (fun _ _ => rfl) ⟨1, by norm_num, by norm_num⟩⟩

theorem filterCompleted_mkChat (pairs : List (String × String)) :
    filterCompleted (pairs.map mkChatChoice)
      = .ok ((keptPairs pairs).map mkChatChoice) := by
  induction pairs with
  | nil => rfl
  | cons p rest ih =>
    by_cases h : p.2 = "length" <;>
      simp [filterCompleted, keptPairs, mkChatChoice, Val.getItem, dictLookup, ih, h,
        Except.bind, bind, List.filter_cons]

theorem mapExcept_getChoiceText_chat (pairs : List (String × String)) :
    mapExcept (get_choice_text "chat") (pairs.map mkChatChoice)
      = .ok (pairs.map (fun p => Val.str p.1)) := by
  induction pairs with
  | nil => rfl
  | cons p rest ih =>
    simp [mapExcept, get_choice_text, mkChatChoice, Val.getItem, dictLookup, ih,
      Except.bind, bind]

/-- C2: `__call__` with `only_completed=true` (chat mode, fresh cache, a
network answering with the given choices) returns exactly the texts of the
choices whose finish reason differs from `"length"`, in their original
order, when at least one such choice exists; when every choice has finish
reason `"length"` it returns the texts of all choices unfiltered. -/
theorem call_truncation_filtering (st : GPT3State) (prompt : String)
    (pairs : List (String × String)) (elapsed : Nat → ℚ)
    (hm : st.model_type = "chat") (hc : st.caches = emptyCaches) :
    ((∃ p ∈ pairs, p.2 ≠ "length") →
      (call (constNet (chatResponse pairs)) elapsed 1 st prompt true false []).1
        = .ok ((keptPairs pairs).map (fun p => Val.str p.1))) ∧
    ((∀ p ∈ pairs, p.2 = "length") →
      (call (constNet (chatResponse pairs)) elapsed 1 st prompt true false []).1
        = .ok (pairs.map (fun p => Val.str p.1))) := by
  rcases hcr : chat_request st.cacheOn st.legacy (constNet (chatResponse pairs) 0)
      emptyCaches (chatRequestKwargs st prompt []) with ⟨res, c'⟩
  have hres : res = .ok (chatResponse pairs) := by
    have h1 := chat_request_serialized_ok st.cacheOn st.legacy
      (constNet (chatResponse pairs) 0)
      (dictSet (dictMerge st.kwargs []) "messages"
        (.list (buildMessages st.system_prompt prompt)))
      (chatResponse pairs) rfl
    have h2 : chatRequestKwargs st prompt []
        = [("stringify_request", Val.serialized (.obj (dictSet (dictMerge st.kwargs [])
            "messages" (.list (buildMessages st.system_prompt prompt)))))] := rfl
    rw [← h2, hcr] at h1
    exact h1
  subst hres
  have hbr : basic_request (constNet (chatResponse pairs) 0) st prompt []
      = (.ok (chatResponse pairs),
         { st with caches := c',
                   history := st.history ++
                     [⟨prompt, chatResponse pairs, chatRequestKwargs st prompt [], []⟩] }) := by
    unfold basic_request
    rw [if_pos hm, hc, hcr]
  have hreq : request (constNet (chatResponse pairs)) elapsed 1 st prompt []
      = (.ok (chatResponse pairs),
         { st with caches := c',
                   history := st.history ++
                     [⟨prompt, chatResponse pairs, chatRequestKwargs st prompt [], []⟩] }, 1) := by
    unfold request backoffRetry
    have hstrip : stripModelType [] = [] := rfl
    rw [hstrip, hbr]
  have hchoices : (chatResponse pairs).getItem "choices"
      = .ok (.list (pairs.map mkChatChoice)) := rfl
  constructor
  · intro hex
    have hne : keptPairs pairs ≠ [] := by
      intro hnil
      obtain ⟨p, hp, hpne⟩ := hex
      have := List.filter_eq_nil_iff.mp hnil p hp
      simp [hpne] at this
    rcases hfe : keptPairs pairs with _ | ⟨x, xs⟩
    · exact absurd hfe hne
    unfold call
    rw [hreq]
    simp only [hchoices, Val.asList, filterCompleted_mkChat, valTruthy, dictLookup,
      Bool.not_true, Bool.false_eq_true, if_false]
    rw [hm, hfe]
    have hmx := mapExcept_getChoiceText_chat (x :: xs)
    simp only [List.map_cons] at hmx
    simp [hmx]
  · intro hall
    have hfil : keptPairs pairs = [] :=
      List.filter_eq_nil_iff.mpr (fun p hp => by simp [hall p hp])
    unfold call
    rw [hreq]
    simp only [hchoices, Val.asList, filterCompleted_mkChat, valTruthy, dictLookup,
      Bool.not_true, Bool.false_eq_true, if_false]
    rw [hm, hfil]
    simp [mapExcept_getChoiceText_chat]

/-- Witness for C2 at the spec's example: one truncated and one completed
choice keep only the completed text; two truncated choices are both kept. -/
theorem call_truncation_filtering_witness :
    (call (constNet (chatResponse [("a", "length"), ("b", "stop")])) (fun _ => 0) 1
        chatModeState "q" true false []).1 = .ok [.str "b"] ∧
    (call (constNet (chatResponse [("a", "length"), ("b", "length")])) (fun _ => 0) 1
        chatModeState "q" true false []).1 = .ok [.str "a", .str "b"] :=
  ⟨(call_truncation_filtering chatModeState "q" [("a", "length"), ("b", "stop")]
      (fun _ => 0) rfl rfl).1 ⟨("b", "stop"), by decide, by decide⟩,
    (call_truncation_filtering chatModeState "q" [("a", "length"), ("b", "length")]
      (fun _ => 0) rfl rfl).2 (by decide)⟩

theorem lexLt_irrefl [LinearOrder α] : ∀ (x : List α), lexLt x x = false
  | [] => rfl
  | a :: as => by simp [lexLt, lt_irrefl, lexLt_irrefl as]

theorem lexLt_asymm [LinearOrder α] :
    ∀ (x y : List α), lexLt x y = true → lexLt y x = false
  | [], [], h => by simp [lexLt] at h
  | [], _ :: _, _ => rfl
  | _ :: _, [], h => by simp [lexLt] at h
  | a :: as, b :: bs, h => by
    simp only [lexLt, Bool.or_eq_true, Bool.and_eq_true, decide_eq_true_eq] at h
    rcases h with hab | ⟨heq, htail⟩
    · simp [lexLt, lt_asymm hab, ne_of_gt hab]
    · subst heq
      simp [lexLt, lt_irrefl, lexLt_asymm as bs htail]

theorem lexLt_negtrans [LinearOrder α] :
    ∀ (x y z : List α), lexLt x y = false → lexLt y z = false → lexLt x z = false
  | x, _, [], _, _ => by cases x <;> rfl
  | [], y, _ :: _, h1, h2 => by
    cases y with
    | nil => simp [lexLt] at h2
    | cons b bs => simp [lexLt] at h1
  | a :: as, y, c :: cs, h1, h2 => by
    cases y with
    | nil => simp [lexLt] at h2
    | cons b bs =>
      have hab : ¬ a < b := fun hh => by simp [lexLt, hh] at h1
      have hbc : ¬ b < c := fun hh => by simp [lexLt, hh] at h2
      have hac : ¬ a < c := not_lt.mpr (le_trans (not_lt.mp hbc) (not_lt.mp hab))
      by_cases he : a = c
      · have hab' : a = b := le_antisymm (by rw [he]; exact not_lt.mp hbc) (not_lt.mp hab)
        have hbc' : b = c := by rw [← hab']; exact he
        subst hab'
        subst hbc'
        have t1 : lexLt as bs = false := by
          by_cases hh : lexLt as bs = true
          · exfalso; simp [lexLt, lt_irrefl, hh] at h1
          · exact Bool.eq_false_iff.mpr hh
        have t2 : lexLt bs cs = false := by
          by_cases hh : lexLt bs cs = true
          · exfalso; simp [lexLt, lt_irrefl, hh] at h2
          · exact Bool.eq_false_iff.mpr hh
        simp [lexLt, lt_irrefl, lexLt_negtrans as bs cs t1 t2]
      · simp [lexLt, hac, he]

theorem lexLt_connex [LinearOrder α] :
    ∀ (x y : List α), lexLt x y = false → lexLt y x = false → x = y
  | [], [], _, _ => rfl
  | [], _ :: _, h1, _ => by simp [lexLt] at h1
  | _ :: _, [], _, h2 => by simp [lexLt] at h2
  | a :: as, b :: bs, h1, h2 => by
    have hab : ¬ a < b := fun hh => by simp [lexLt, hh] at h1
    have hba : ¬ b < a := fun hh => by simp [lexLt, hh] at h2
    have he : a = b := le_antisymm (not_lt.mp hba) (not_lt.mp hab)
    subst he
    have t1 : lexLt as bs = false := by
      by_cases hh : lexLt as bs = true
      · exfalso; simp [lexLt, lt_irrefl, hh] at h1
      · exact Bool.eq_false_iff.mpr hh
    have t2 : lexLt bs as = false := by
      by_cases hh : lexLt bs as = true
      · exfalso; simp [lexLt, lt_irrefl, hh] at h2
      · exact Bool.eq_false_iff.mpr hh
    rw [lexLt_connex as bs t1 t2]

theorem tupLt_asymm (x y : ℚ × String × List ℚ) (h : tupLt x y = true) :
    tupLt y x = false := by
  obtain ⟨a1, a2, a3⟩ := x
  obtain ⟨b1, b2, b3⟩ := y
  simp only [tupLt, Bool.or_eq_true, Bool.and_eq_true, decide_eq_true_eq] at h
  rcases h with h1 | ⟨heq, h2⟩
  · simp [tupLt, lt_asymm h1, ne_of_gt h1]
  · subst heq
    rcases h2 with hs | ⟨hseq, h3⟩
    · have hne : ¬ b2 = a2 := by
        intro he
        rw [he] at hs
        rw [lexLt_irrefl a2.data] at hs
        exact Bool.false_ne_true hs
      simp [tupLt, lt_irrefl, lexLt_asymm _ _ hs, hne]
    · subst hseq
      simp [tupLt, lt_irrefl, lexLt_irrefl, lexLt_asymm _ _ h3]

theorem tupLt_negtrans (x y z : ℚ × String × List ℚ) (h1 : tupLt x y = false)
    (h2 : tupLt y z = false) : tupLt x z = false := by
  obtain ⟨a1, a2, a3⟩ := x
  obtain ⟨b1, b2, b3⟩ := y
  obtain ⟨c1, c2, c3⟩ := z
  have hab : ¬ a1 < b1 := fun hh => by simp [tupLt, hh] at h1
  have hbc : ¬ b1 < c1 := fun hh => by simp [tupLt, hh] at h2
  have hac : ¬ a1 < c1 := not_lt.mpr (le_trans (not_lt.mp hbc) (not_lt.mp hab))
  by_cases he : a1 = c1
  · have hab' : a1 = b1 := le_antisymm (by rw [he]; exact not_lt.mp hbc) (not_lt.mp hab)
    have hbc' : b1 = c1 := by rw [← hab']; exact he
    subst hab'
    subst hbc'
    have hs_ab : lexLt a2.data b2.data = false := by
      by_cases hh : lexLt a2.data b2.data = true
      · exfalso; simp [tupLt, lt_irrefl, hh] at h1
      · exact Bool.eq_false_iff.mpr hh
    have hs_bc : lexLt b2.data c2.data = false := by
      by_cases hh : lexLt b2.data c2.data = true
      · exfalso; simp [tupLt, lt_irrefl, hh] at h2
      · exact Bool.eq_false_iff.mpr hh
    have hs_ac : lexLt a2.data c2.data = false := lexLt_negtrans _ _ _ hs_ab hs_bc
    by_cases hse : a2 = c2
    · have hs_ba : lexLt b2.data a2.data = false := by
        rw [hse]
        exact hs_bc
      have hdata : a2.data = b2.data := lexLt_connex _ _ hs_ab hs_ba
      have hsab : a2 = b2 := by
        cases a2
        cases b2
        exact congrArg String.mk hdata
      subst hsab
      have hl_ab : lexLt a3 b3 = false := by
        by_cases hh : lexLt a3 b3 = true
        · exfalso; simp [tupLt, lt_irrefl, lexLt_irrefl, hh] at h1
        · exact Bool.eq_false_iff.mpr hh
      have hl_bc : lexLt b3 c3 = false := by
        by_cases hh : lexLt b3 c3 = true
        · exfalso
          rw [← hse] at h2
          simp [tupLt, lt_irrefl, lexLt_irrefl, hh] at h2
        · exact Bool.eq_false_iff.mpr hh
      simp [tupLt, lt_irrefl, hse, lexLt_irrefl, lexLt_negtrans a3 b3 c3 hl_ab hl_bc]
    · simp [tupLt, lt_irrefl, he, hs_ac, hse]
  · simp [tupLt, hac, he]

theorem mem_insertDesc (lt : α → α → Bool) (a x : α) (l : List α) :
    x ∈ insertDesc lt a l ↔ x = a ∨ x ∈ l := by
  induction l with
  | nil => simp [insertDesc]
  | cons b bs ih =>
    by_cases h : lt a b = true <;> simp [insertDesc, h, ih]
    tauto

theorem pairwise_insertDesc (lt : α → α → Bool)
    (hasym : ∀ x y, lt x y = true → lt y x = false)
    (hneg : ∀ x y z, lt x y = false → lt y z = false → lt x z = false)
    (a : α) (l : List α) (hl : l.Pairwise (fun x y => lt x y = false)) :
    (insertDesc lt a l).Pairwise (fun x y => lt x y = false) := by
  induction l with
  | nil => simp [insertDesc]
  | cons b bs ih =>
    rcases List.pairwise_cons.mp hl with ⟨hb, hbs⟩
    by_cases h : lt a b = true
    · rw [insertDesc, if_pos h]
      refine List.pairwise_cons.mpr ⟨?_, ih hbs⟩
      intro y hy
      rcases (mem_insertDesc lt a y bs).mp hy with rfl | hy'
      · exact hasym _ _ h
      · exact hb y hy'
    · rw [insertDesc, if_neg h]
      have ha : lt a b = false := Bool.eq_false_iff.mpr h
      refine List.pairwise_cons.mpr ⟨?_, hl⟩
      intro y hy
      rcases List.mem_cons.mp hy with rfl | hy'
      · exact ha
      · exact hneg a b y ha (hb y hy')

theorem pairwise_sortDesc (lt : α → α → Bool)
    (hasym : ∀ x y, lt x y = true → lt y x = false)
    (hneg : ∀ x y z, lt x y = false → lt y z = false → lt x z = false)
    (l : List α) :
    (sortDesc lt l).Pairwise (fun x y => lt x y = false) := by
  induction l with
  | nil => simp [sortDesc]
  | cons a as ih => exact pairwise_insertDesc lt hasym hneg a _ ih

/-- Counterexample to C8 as stated: a `__call__` with `return_sorted=true`
and `n>1` never returns completions at all — line 180's
`assert return_sorted is False` raises first, so the sorting path is
unreachable from `__call__`. -/
theorem return_sorted_asserts_counterexample :
    (call (constNet (chatResponse [("a", "stop"), ("b", "stop")])) (fun _ => 0) 1
        chatModeState "q" true true [("n", .int 2)])
      = (.error (.assertionError "for now"), chatModeState) := rfl

/-- C8 (amended): `__call__` with `return_sorted=true` fails the `"for now"`
assertion before producing anything; the sorting logic it guards (lines
203-224, modelled by `scoredCompletions`) orders the scored completions
non-increasing by mean per-token log-probability — computed over the token
sequence truncated at (and including) the first `<|endoftext|>` marker when
present — and truncation is the identity when no marker occurs, so its
absence cannot change the ranking. -/
theorem scored_sort_correct (model_type : String) (choices : List Val)
    (out : List (ℚ × String × List ℚ))
    (h : scoredCompletions model_type choices = .ok out) :
    List.Pairwise (fun x y => y.1 ≤ x.1) out ∧
    (∀ toks lps, Val.str eotToken ∉ toks → truncAtEot toks lps = (toks, lps)) := by
  constructor
  · have hout : ∃ scored, out = sortDesc tupLt scored := by
      unfold scoredCompletions at h
      rcases hs : scoreAll model_type choices with e | scored <;> rw [hs] at h
      · simp [Except.bind, bind] at h
      · refine ⟨scored, ?_⟩
        simp only [Except.bind, bind, pure, Except.pure, Except.ok.injEq] at h
        exact h.symm
    obtain ⟨scored, rfl⟩ := hout
    refine (pairwise_sortDesc tupLt tupLt_asymm tupLt_negtrans scored).imp ?_
    intro x y hxy
    have hlt : ¬ x.1 < y.1 := fun hh => by simp [tupLt, hh] at hxy
    exact not_lt.mp hlt
  · intro toks lps hnot
    simp [truncAtEot, hnot]

/-- Witness for the amended C8 at a concrete scored run: the choice with
mean log-probability `0` is ranked before the one with mean `-2`. -/
theorem scored_sort_correct_witness :
    List.Pairwise (fun (x y : ℚ × String × List ℚ) => y.1 ≤ x.1)
      [(0, "b", [0]), (-2, "a", [-1, -3])] ∧
    (∀ toks lps, Val.str eotToken ∉ toks → truncAtEot toks lps = (toks, lps)) :=
  scored_sort_correct "text" [lpChoice "a" ["x", "y"] [-1, -3], lpChoice "b" ["z"] [0]]
    [(0, "b", [0]), (-2, "a", [-1, -3])] (by
      simp [scoredCompletions, scoreAll, scoreChoice, lpChoice, Val.getItem, dictLookup,
        Val.asList, Val.asRatList, ratListOf, get_choice_text, truncAtEot, eotToken,
        sortDesc, insertDesc, tupLt, lexLt, Except.bind, bind, pure, Except.pure,
        List.indexOf, List.findIdx, List.findIdx.go]
      norm_num [sortDesc, insertDesc, tupLt, lexLt])

end DspGpt3
